import Mathlib

/-!
Shallow embedding of the Mobi launch-time file-association handler
(src/src-tauri/src/lib.rs).

Strings are modelled as byte lists (`List Nat`, each entry one byte), so
that percent-decoding can produce non-UTF-8 byte sequences exactly as the
Rust `urlencoding::decode` can.  The shared application state
(`AppState.opened_file` plus the stream of `open-file` events emitted to
the main window) is modelled by `CoordState`; the `RunEvent::Opened`
handler body is `processUrl` / `processUrls`, and the `get_opened_file`
Tauri command is `get_opened_file`.
-/

/-- Bytes of an ASCII string literal. -/
def strBytes (s : String) : List Nat := s.data.map Char.toNat

/-- The bytes of the string "file://" checked by `starts_with` in the handler. -/
def fileScheme : List Nat := strBytes "file://"

/-- Value of an ASCII hex digit, as in `urlencoding`'s `from_hex_digit`. -/
def hexDigitVal (c : Nat) : Option Nat :=
  if 48 ≤ c ∧ c ≤ 57 then some (c - 48)
  else if 65 ≤ c ∧ c ≤ 70 then some (c - 55)
  else if 97 ≤ c ∧ c ≤ 102 then some (c - 87)
  else none

/-- `urlencoding::decode_binary`: replace each `%XY` (X, Y hex digits) by the
byte it denotes; malformed sequences are passed through verbatim, with
scanning resuming right after the lone `%`. Byte 37 is `%`. -/
def percentDecode : List Nat → List Nat
  | [] => []
  | 37 :: a :: b :: rest =>
    match hexDigitVal a, hexDigitVal b with
    | some ha, some hb => (16 * ha + hb) :: percentDecode rest
    | _, _ => 37 :: percentDecode (a :: b :: rest)
  | c :: rest => c :: percentDecode rest

/-- A UTF-8 continuation byte (0x80–0xBF). -/
def isCont (b : Nat) : Bool := decide (128 ≤ b ∧ b ≤ 191)

/-- Validity of a byte sequence as UTF-8, as checked by Rust's
`String::from_utf8` (rejecting overlong forms, surrogates and
code points above U+10FFFF). -/
def utf8Valid : List Nat → Bool
  | [] => true
  | b :: rest =>
    if b ≤ 127 then utf8Valid rest
    else if 194 ≤ b ∧ b ≤ 223 then
      match rest with
      | c1 :: r => isCont c1 && utf8Valid r
      | _ => false
    else if b = 224 then
      match rest with
      | c1 :: c2 :: r => decide (160 ≤ c1 ∧ c1 ≤ 191) && isCont c2 && utf8Valid r
      | _ => false
    else if 225 ≤ b ∧ b ≤ 236 then
      match rest with
      | c1 :: c2 :: r => isCont c1 && isCont c2 && utf8Valid r
      | _ => false
    else if b = 237 then
      match rest with
      | c1 :: c2 :: r => decide (128 ≤ c1 ∧ c1 ≤ 159) && isCont c2 && utf8Valid r
      | _ => false
    else if 238 ≤ b ∧ b ≤ 239 then
      match rest with
      | c1 :: c2 :: r => isCont c1 && isCont c2 && utf8Valid r
      | _ => false
    else if b = 240 then
      match rest with
      | c1 :: c2 :: c3 :: r =>
        decide (144 ≤ c1 ∧ c1 ≤ 191) && isCont c2 && isCont c3 && utf8Valid r
      | _ => false
    else if 241 ≤ b ∧ b ≤ 243 then
      match rest with
      | c1 :: c2 :: c3 :: r => isCont c1 && isCont c2 && isCont c3 && utf8Valid r
      | _ => false
    else if b = 244 then
      match rest with
      | c1 :: c2 :: c3 :: r =>
        decide (128 ≤ c1 ∧ c1 ≤ 143) && isCont c2 && isCont c3 && utf8Valid r
      | _ => false
    else false

/-- `urlencoding::decode`: percent-decode the bytes, then require the result
to be valid UTF-8; `none` models the `Err` case. -/
def urldecode (bs : List Nat) : Option (List Nat) :=
  let d := percentDecode bs
  if utf8Valid d then some d else none

/-- The extension whitelist of the handler: `.md`, `.markdown`, `.txt`. -/
def acceptedExts : List (List Nat) :=
  [strBytes ".md", strBytes ".markdown", strBytes ".txt"]

/-- `file_path.ends_with(".md") || file_path.ends_with(".markdown") ||
file_path.ends_with(".txt")`. -/
def hasAcceptedExt (p : List Nat) : Bool :=
  (strBytes ".md").isSuffixOf p || (strBytes ".markdown").isSuffixOf p ||
    (strBytes ".txt").isSuffixOf p

/-- The shared application state: the `opened_file` mailbox slot
(`Arc<Mutex<Option<String>>>`) together with the history of `open-file`
events emitted to the main window. -/
structure CoordState where
  opened_file : Option (List Nat)
  emitted : List (List Nat)
deriving DecidableEq

/-- The state at process start: empty mailbox, nothing emitted. -/
def initState : CoordState := ⟨none, []⟩

/-- The `get_opened_file` Tauri command: `file.take()` under the lock —
returns the current content and clears the slot in one critical section. -/
def get_opened_file (s : CoordState) : Option (List Nat) × CoordState :=
  (s.opened_file, { s with opened_file := none })

/-- The store in the `Opened` handler: `*state = Some(file_path.clone())`
under the lock — unconditionally replaces the slot content. -/
def store (p : List Nat) (s : CoordState) : CoordState :=
  { s with opened_file := some p }

/-- `window.emit("open-file", file_path)`: record a one-shot delivery of
`p` to the main window. -/
def emitOpen (p : List Nat) (s : CoordState) : CoordState :=
  { s with emitted := s.emitted ++ [p] }

/-- The path the handler works with after the best-effort decode:
`urlencoding::decode(&file_path).map(|s| s.to_string()).unwrap_or(file_path)`. -/
def effectivePath (bs : List Nat) : List Nat := (urldecode bs).getD bs

/-- Processing of one identifier of a `RunEvent::Opened` batch.  `w` is
whether `app_handle.get_webview_window("main")` returns `Some`.  Mirrors
the loop body: scheme check, strip the 7-byte prefix of `file://`,
best-effort decode, extension filter, store, and emit when the window
exists. -/
def processUrl (w : Bool) (url : List Nat) (s : CoordState) : CoordState :=
  if fileScheme.isPrefixOf url then
    let p := effectivePath (url.drop 7)
    if hasAcceptedExt p then
      let s1 := store p s
      if w then emitOpen p s1 else s1
    else s
  else s

/-- The whole `for url in urls` loop of the `Opened` handler. -/
def processUrls (w : Bool) (urls : List (List Nat)) (s : CoordState) : CoordState :=
  urls.foldl (fun st u => processUrl w u st) s

/-- Classification of one identifier: `some p` when it passes the scheme
and extension filters with effective path `p`, `none` when it is ignored. -/
def classify (url : List Nat) : Option (List Nat) :=
  if fileScheme.isPrefixOf url then
    let p := effectivePath (url.drop 7)
    if hasAcceptedExt p then some p else none
  else none

/-- An atomic operation on the shared slot: a handler-side store of a path,
or a UI-side `get_opened_file` call. -/
inductive MOp where
  | mstore (p : List Nat) : MOp
  | mtake : MOp
deriving DecidableEq

/-- Run a sequence of slot operations (one interleaving of the OS-event
handler and the UI query); returns the final state and the list of values
the `mtake` calls returned, in order. -/
def runOps : List MOp → CoordState → CoordState × List (Option (List Nat))
  | [], s => (s, [])
  | MOp.mstore p :: rest, s => runOps rest (store p s)
  | MOp.mtake :: rest, s =>
    let r := get_opened_file s
    let (sf, outs) := runOps rest r.2
    (sf, r.1 :: outs)

/-- How many `mtake` results delivered the path `v`. -/
def countSome (v : List Nat) : List (Option (List Nat)) → Nat
  | [] => 0
  | o :: rest => (if o = some v then 1 else 0) + countSome v rest

/-- How many operations in the sequence store the path `v`. -/
def countStore (v : List Nat) : List MOp → Nat
  | [] => 0
  | MOp.mstore p :: rest => (if p = v then 1 else 0) + countStore v rest
  | MOp.mtake :: rest => countStore v rest

/-- ASCII lower-casing of one byte. -/
def lowerByte (b : Nat) : Nat := if 65 ≤ b ∧ b ≤ 90 then b + 32 else b

/-! ### Helper lemmas -/

theorem classify_none_processUrl (w : Bool) (url : List Nat) (s : CoordState)
    (h : classify url = none) : processUrl w url s = s := by
  simp only [classify] at h
  simp only [processUrl]
  split_ifs at h ⊢ <;> rfl

theorem classify_some_processUrl (w : Bool) (url p : List Nat) (s : CoordState)
    (h : classify url = some p) :
    processUrl w url s = if w then emitOpen p (store p s) else store p s := by
  simp only [classify] at h
  simp only [processUrl]
  split_ifs at h ⊢ <;> simp_all

/-! ### Claims -/

/-- C1 counterexample: a qualifying notification (`file:///tmp/note.txt`)
arriving while the main window is reachable is emitted to the UI as an
`open-file` event, yet `get_opened_file` afterwards returns the path,
not empty — the handler also wrote the mailbox, contrary to the claim. -/
theorem c1_counterexample :
    (processUrl true (strBytes "file:///tmp/note.txt") initState).emitted
        = [strBytes "/tmp/note.txt"] ∧
    (get_opened_file (processUrl true (strBytes "file:///tmp/note.txt") initState)).1
        = some (strBytes "/tmp/note.txt") ∧
    (get_opened_file (processUrl true (strBytes "file:///tmp/note.txt") initState)).1
        ≠ none := by decide

/-- C1 (amended): for every qualifying notification arriving while the main
window is reachable, the handler both emits a one-shot `open-file` event to
the UI and writes the path to the mailbox, so a `take()` performed
afterwards with no further notifications returns the path (not empty). -/
theorem c1_store_and_emit (url p : List Nat) (s : CoordState)
    (h : classify url = some p) :
    (processUrl true url s).emitted = s.emitted ++ [p] ∧
    (get_opened_file (processUrl true url s)).1 = some p := by
  rw [classify_some_processUrl true url p s h]
  exact ⟨rfl, rfl⟩

/-- C1 witness: the amended claim at `file:///tmp/note.txt` from the
initial state. -/
theorem c1_store_and_emit_witness :
    (processUrl true (strBytes "file:///tmp/note.txt") initState).emitted
        = initState.emitted ++ [strBytes "/tmp/note.txt"] ∧
    (get_opened_file (processUrl true (strBytes "file:///tmp/note.txt") initState)).1
        = some (strBytes "/tmp/note.txt") :=
  c1_store_and_emit (strBytes "file:///tmp/note.txt") (strBytes "/tmp/note.txt")
    initState (by decide)

/-- C2: from every mailbox state, `get_opened_file` returns the previous
content, and a second call with no intervening store returns empty. -/
theorem c2_take_twice (s : CoordState) :
    (get_opened_file s).1 = s.opened_file ∧
    (get_opened_file (get_opened_file s).2).1 = none :=
  ⟨rfl, rfl⟩

/-- C3: `store A` then `store B` with no intervening take leaves the mailbox
holding `B` only: the next take returns `B`, and the one after that is
empty (`A` is lost; last write wins). -/
theorem c3_last_write_wins (A B : List Nat) (s : CoordState) :
    (get_opened_file (store B (store A s))).1 = some B ∧
    (get_opened_file (get_opened_file (store B (store A s))).2).1 = none :=
  ⟨rfl, rfl⟩

/-- C4: a qualifying notification (file scheme, decodable path, accepted
extension) arriving while no window is reachable is stored, and a later
`get_opened_file` returns exactly the decoded path with the `file://`
prefix of seven bytes removed. -/
theorem c4_deferred_delivery (s : CoordState) (url p : List Nat)
    (hpre : fileScheme.isPrefixOf url = true)
    (hdec : urldecode (url.drop 7) = some p)
    (hext : hasAcceptedExt p = true) :
    (get_opened_file (processUrl false url s)).1 = some p := by
  have heff : effectivePath (url.drop 7) = p := by
    simp [effectivePath, hdec]
  simp [processUrl, hpre, heff, hext, store, get_opened_file]

/-- C4 witness: `file:///docs/readme.markdown` stored while no window is
reachable, then taken. -/
theorem c4_deferred_delivery_witness :
    (get_opened_file (processUrl false (strBytes "file:///docs/readme.markdown")
        initState)).1 = some (strBytes "/docs/readme.markdown") :=
  c4_deferred_delivery initState (strBytes "file:///docs/readme.markdown")
    (strBytes "/docs/readme.markdown") (by decide) (by decide) (by decide)

/-- C6: for the identifier `file:///tmp/My%20Notes.md` the path that is
delivered (window reachable) or stored (window not reachable) is
`/tmp/My Notes.md`: percent-encoding is reversed. -/
theorem c6_percent_decoding :
    classify (strBytes "file:///tmp/My%20Notes.md")
        = some (strBytes "/tmp/My Notes.md") ∧
    (processUrl true (strBytes "file:///tmp/My%20Notes.md") initState).emitted
        = [strBytes "/tmp/My Notes.md"] ∧
    (processUrl false (strBytes "file:///tmp/My%20Notes.md") initState).opened_file
        = some (strBytes "/tmp/My Notes.md") := by decide

/-- C5: in the batch `["file:///tmp/a.md", "https://example.com/x",
"file:///tmp/b.exe"]` exactly one identifier passes filtering, namely
`/tmp/a.md` (it is the only stored and the only emitted path); the https
identifier fails the scheme filter, the `.exe` one the extension filter;
and in general only paths with suffix `.md`, `.markdown` or `.txt` are
accepted. -/
theorem c5_batch_filtering :
    (∀ w : Bool,
      processUrls w [strBytes "file:///tmp/a.md", strBytes "https://example.com/x",
          strBytes "file:///tmp/b.exe"] initState
        = ⟨some (strBytes "/tmp/a.md"),
            if w then [strBytes "/tmp/a.md"] else []⟩) ∧
    classify (strBytes "https://example.com/x") = none ∧
    classify (strBytes "file:///tmp/b.exe") = none ∧
    ∀ url p, classify url = some p →
      ((strBytes ".md").isSuffixOf p = true ∨
        (strBytes ".markdown").isSuffixOf p = true ∨
        (strBytes ".txt").isSuffixOf p = true) := by
  refine ⟨by decide, by decide, by decide, ?_⟩
  intro url p h
  simp only [classify] at h
  split_ifs at h with h1 h2
  · simp only [Option.some.injEq] at h
    subst h
    simpa [hasAcceptedExt, Bool.or_eq_true, or_assoc] using h2

/-- C5 witness: the general suffix conjunct applied to `file:///tmp/a.md`. -/
theorem c5_batch_filtering_witness :
    (strBytes ".md").isSuffixOf (strBytes "/tmp/a.md") = true ∨
    (strBytes ".markdown").isSuffixOf (strBytes "/tmp/a.md") = true ∨
    (strBytes ".txt").isSuffixOf (strBytes "/tmp/a.md") = true :=
  c5_batch_filtering.2.2.2 (strBytes "file:///tmp/a.md") (strBytes "/tmp/a.md")
    (by decide)

/-- C7: when the percent-decoding of the path of a `file://` identifier
fails, the handler does not fail the request: it proceeds with the raw,
still-encoded path through the extension filter and the store/emit
delivery decision. -/
theorem c7_decode_fallback (w : Bool) (s : CoordState) (url : List Nat)
    (hpre : fileScheme.isPrefixOf url = true)
    (hdec : urldecode (url.drop 7) = none) :
    processUrl w url s =
      if hasAcceptedExt (url.drop 7) then
        (if w then emitOpen (url.drop 7) (store (url.drop 7) s)
         else store (url.drop 7) s)
      else s := by
  have heff : effectivePath (url.drop 7) = url.drop 7 := by
    simp [effectivePath, hdec]
  simp [processUrl, hpre, heff]

/-- C7 witness: `file:///tmp/%FF.md` percent-decodes to a non-UTF-8 byte
sequence, so decoding fails; the raw path `/tmp/%FF.md` passes the `.md`
extension filter and is stored and emitted. -/
theorem c7_decode_fallback_witness :
    urldecode ((strBytes "file:///tmp/%FF.md").drop 7) = none ∧
    processUrl true (strBytes "file:///tmp/%FF.md") initState =
      (if hasAcceptedExt ((strBytes "file:///tmp/%FF.md").drop 7) then
        (if true then
          emitOpen ((strBytes "file:///tmp/%FF.md").drop 7)
            (store ((strBytes "file:///tmp/%FF.md").drop 7) initState)
         else store ((strBytes "file:///tmp/%FF.md").drop 7) initState)
       else initState) :=
  ⟨by decide, c7_decode_fallback true initState (strBytes "file:///tmp/%FF.md")
    (by decide) (by decide)⟩

/-- C8 counterexample: the identifier `file:///tmp/%FF.md` fails
percent-decoding, yet it is not ignored: the handler stores the raw path
`/tmp/%FF.md`, so a decode failure is not a rejection reason. -/
theorem c8_counterexample :
    urldecode ((strBytes "file:///tmp/%FF.md").drop 7) = none ∧
    (processUrls false [strBytes "file:///tmp/%FF.md"] initState).opened_file
        = some (strBytes "/tmp/%FF.md") ∧
    (processUrls false [strBytes "file:///tmp/%FF.md"] initState).opened_file
        ≠ none := by decide

/-- C8 (amended): an identifier rejected by the filters (non-`file://`
scheme or unsupported extension of its effective path — a decode failure
alone does not reject, the raw path is used instead) is silently ignored:
removing it from a batch leaves the processing of all other identifiers,
before and after it, unchanged. -/
theorem c8_rejected_noninterference (w : Bool) (xs ys : List (List Nat))
    (bad : List Nat) (s : CoordState) (h : classify bad = none) :
    processUrls w (xs ++ bad :: ys) s = processUrls w (xs ++ ys) s := by
  simp only [processUrls, List.foldl_append, List.foldl_cons]
  rw [classify_none_processUrl w bad _ h]

/-- C8 witness: dropping the rejected `https://example.com/x` from the
three-identifier batch of §8 does not change the outcome. -/
theorem c8_rejected_noninterference_witness :
    processUrls true
        ([strBytes "file:///tmp/a.md"] ++ strBytes "https://example.com/x"
          :: [strBytes "file:///tmp/b.exe"]) initState
      = processUrls true ([strBytes "file:///tmp/a.md"] ++ [strBytes "file:///tmp/b.exe"])
          initState :=
  c8_rejected_noninterference true [strBytes "file:///tmp/a.md"]
    [strBytes "file:///tmp/b.exe"] (strBytes "https://example.com/x") initState
    (by decide)

/-- In any interleaving of slot operations starting from `s`, the number of
takes that deliver `v` is bounded by the number of stores of `v` plus one
if `v` is already pending in `s`. -/
theorem countSome_runOps_le (v : List Nat) (ops : List MOp) (s : CoordState) :
    countSome v (runOps ops s).2 ≤
      countStore v ops + (if s.opened_file = some v then 1 else 0) := by
  induction ops generalizing s with
  | nil => simp [runOps, countSome]
  | cons op rest ih =>
    cases op with
    | mstore p =>
      have h := ih (store p s)
      simp only [runOps, countStore, store] at h ⊢
      split_ifs at h ⊢ <;> simp_all <;> omega
    | mtake =>
      have h := ih ⟨none, s.emitted⟩
      simp only [runOps, countSome, countStore, get_opened_file] at h ⊢
      split_ifs at h ⊢ <;> simp_all <;> omega

/-- C9: with `store` and `get_opened_file` modelled as atomic operations on
the single shared slot (each is one critical section under the one mutex),
no interleaving of the OS-event handler and the UI query delivers the same
stored path twice — across every operation sequence from the initial
state, takes returning `v` never outnumber stores of `v` — and no update
is lost: a store is visible to the take that follows it, and a take
empties the slot for the next one. -/
theorem c9_no_double_delivery :
    (∀ (ops : List MOp) (v : List Nat),
      countSome v (runOps ops initState).2 ≤ countStore v ops) ∧
    (∀ (s : CoordState) (p : List Nat),
      (get_opened_file (store p s)).1 = some p) ∧
    (∀ s : CoordState, (get_opened_file (get_opened_file s).2).1 = none) := by
  refine ⟨fun ops v => ?_, fun s p => rfl, fun s => rfl⟩
  have h := countSome_runOps_le v ops initState
  simpa [initState] using h

/-- The accepted extensions are already lower-case. -/
theorem accepted_lower_fix : ∀ a ∈ acceptedExts, a.map lowerByte = a := by decide

/-- Among the accepted extensions, none is a proper suffix of another. -/
theorem accepted_suffix_eq :
    ∀ a ∈ acceptedExts, ∀ b ∈ acceptedExts, a.isSuffixOf b = true → a = b := by
  decide

/-- If a path ends in a case variant `e` of an accepted extension that is
not itself accepted, then no accepted extension is a suffix of the path. -/
theorem not_accepted_suffix (p e a : List Nat) (ha : a ∈ acceptedExts)
    (hlow : e.map lowerByte ∈ acceptedExts) (hne : e ∉ acceptedExts)
    (hsuf : e <:+ p) : ¬ a <:+ p := by
  intro hap
  rcases List.suffix_or_suffix_of_suffix hap hsuf with hae | hea
  · have h1 : a.map lowerByte <:+ e.map lowerByte := hae.map lowerByte
    rw [accepted_lower_fix a ha] at h1
    have h2 : a = e.map lowerByte :=
      accepted_suffix_eq a ha _ hlow (List.isSuffixOf_iff_suffix.mpr h1)
    have hlen : a.length = e.length := by rw [h2, List.length_map]
    have hae2 : a = e := hae.eq_of_length hlen
    exact hne (hae2 ▸ ha)
  · have h1 : e.map lowerByte <:+ a.map lowerByte := hea.map lowerByte
    rw [accepted_lower_fix a ha] at h1
    have h2 : e.map lowerByte = a :=
      accepted_suffix_eq _ hlow a ha (List.isSuffixOf_iff_suffix.mpr h1)
    have hlen : e.length = a.length := by rw [← h2, List.length_map]
    have hea2 : e = a := hea.eq_of_length hlen
    exact hne (hea2 ▸ ha)

/-- C10: the extension filter is an exact, case-sensitive suffix check on
the effective (decoded) path: a `file://` identifier whose path ends in a
case variant `e` of an accepted extension (lower-casing `e` gives an
accepted extension but `e` itself is not one, e.g. `.MD`, `.Markdown`,
`.TXT`) is silently ignored — nothing is stored and nothing is emitted. -/
theorem c10_case_sensitive (w : Bool) (s : CoordState) (url e : List Nat)
    (hpre : fileScheme.isPrefixOf url = true)
    (hlow : e.map lowerByte ∈ acceptedExts)
    (hne : e ∉ acceptedExts)
    (hsuf : e.isSuffixOf (effectivePath (url.drop 7)) = true) :
    processUrl w url s = s := by
  have hs := List.isSuffixOf_iff_suffix.mp hsuf
  have e1 : (strBytes ".md").isSuffixOf (effectivePath (url.drop 7)) = false := by
    rw [Bool.eq_false_iff]
    intro hx
    exact not_accepted_suffix _ e _ (by decide) hlow hne hs
      (List.isSuffixOf_iff_suffix.mp hx)
  have e2 : (strBytes ".markdown").isSuffixOf (effectivePath (url.drop 7)) = false := by
    rw [Bool.eq_false_iff]
    intro hx
    exact not_accepted_suffix _ e _ (by decide) hlow hne hs
      (List.isSuffixOf_iff_suffix.mp hx)
  have e3 : (strBytes ".txt").isSuffixOf (effectivePath (url.drop 7)) = false := by
    rw [Bool.eq_false_iff]
    intro hx
    exact not_accepted_suffix _ e _ (by decide) hlow hne hs
      (List.isSuffixOf_iff_suffix.mp hx)
  have hext : hasAcceptedExt (effectivePath (url.drop 7)) = false := by
    simp [hasAcceptedExt, e1, e2, e3]
  simp [processUrl, hpre, hext]

/-- C10 witness: `file:///tmp/a.MD` (ending in the upper-case variant
`.MD`) is ignored: the state is unchanged. -/
theorem c10_case_sensitive_witness :
    processUrl false (strBytes "file:///tmp/a.MD") initState = initState :=
  c10_case_sensitive false initState (strBytes "file:///tmp/a.MD") (strBytes ".MD")
    (by decide) (by decide) (by decide) (by decide)
